import Mathlib

/-!
Verification of the food-bot backend services (auth, preferences, chat
history, chat glue) against their natural-language specification.

The Python services are shallowly embedded: Firestore collections become
association lists from document id to document record, documents become
structures, and each service method becomes a pure Lean function that is
faithful to the Python control flow (including its `try/except` blocks,
which are made explicit through an error type distinguishing `ValueError`
from the generic `Exception`). External collaborators (bcrypt, PyJWT,
Firestore itself, the LLM agent) are modelled by their client contracts:
bcrypt by an abstract hash/check pair, PyJWT by an executable token codec,
Firestore queries by filter/sort/limit over the association lists, the
agent by an `Except` outcome parameter.
-/

/-! ## Text utilities

Python string operations (`lower`, `strip`, `split`, substring `in`,
`len`) are embedded as executable functions over the character list of a
`String`, so that concrete instances reduce inside the kernel. -/

/-- Model of Python `str.lower()` (character-wise lowering). -/
def strLower (s : String) : String := ⟨s.data.map Char.toLower⟩

/-- Model of Python `str.strip()`: drop whitespace at both ends. -/
def strTrim (s : String) : String :=
  ⟨((s.data.dropWhile Char.isWhitespace).reverse.dropWhile Char.isWhitespace).reverse⟩

/-- Auxiliary substring search on character lists: does `needle` occur
as a contiguous sublist of the first argument? -/
def subOccurs : List Char → List Char → Bool
  | _, [] => true
  | [], _ :: _ => false
  | h :: t, n => n.isPrefixOf (h :: t) || subOccurs t n

/-- Model of Python `needle in hay` for strings (substring containment). -/
def strContains (hay needle : String) : Bool := subOccurs hay.data needle.data

/-- Auxiliary word counter; the flag records whether we are inside a run
of non-whitespace characters. -/
def wordCountAux (inWord : Bool) : List Char → Nat
  | [] => 0
  | c :: t =>
    if c.isWhitespace then wordCountAux false t
    else (if inWord then 0 else 1) + wordCountAux true t

/-- Model of Python `len(s.split())`: the number of maximal
non-whitespace runs in `s`. -/
def wordCount (s : String) : Nat := wordCountAux false s.data

/-- Model of Python `len(s)` (number of characters). -/
def strLen (s : String) : Nat := s.data.length

/-! ## Association-list dictionaries

Firestore collections (document id → document) and Python dicts are both
modelled as association lists with the insertion-order semantics of
Python dicts: updating an existing key keeps its position, a new key is
appended at the end. -/

/-- First value stored under key `k`, if any. -/
def lookupKey (k : String) : List (String × α) → Option α
  | [] => none
  | (k', v) :: t => if k' = k then some v else lookupKey k t

/-- Key-membership test (Python `k in d`). -/
def containsKey (k : String) : List (String × α) → Bool
  | [] => false
  | (k', _) :: t => k' == k || containsKey k t

/-- Set key `k` to `v`: replace the first binding of `k`, or append a new
binding at the end (Python dict assignment). -/
def setKey (k : String) (v : α) : List (String × α) → List (String × α)
  | [] => [(k, v)]
  | (k', v') :: t => if k' = k then (k, v) :: t else (k', v') :: setKey k v t

/-- Apply `f` to the value stored under `k` (in-place mutation of a dict
entry, e.g. `d[k]["count"] += 1`). -/
def updateKey (k : String) (f : α → α) : List (String × α) → List (String × α)
  | [] => []
  | (k', v') :: t => if k' = k then (k, f v') :: t else (k', v') :: updateKey k f t

/-! ## Sorting

Firestore `order_by(..., DESCENDING)` and Python `list.sort` are embedded
as an insertion sort parameterised by a boolean "may come before"
relation. -/

/-- Insert `x` into `l` before the first element `y` with `le x y`. -/
def insertLe (le : α → α → Bool) (x : α) : List α → List α
  | [] => [x]
  | y :: ys => if le x y then x :: y :: ys else y :: insertLe le x ys

/-- Insertion sort by the boolean relation `le`. -/
def sortLe (le : α → α → Bool) : List α → List α
  | [] => []
  | x :: xs => insertLe le x (sortLe le xs)

theorem insertLe_perm (le : α → α → Bool) (x : α) (l : List α) :
    List.Perm (insertLe le x l) (x :: l) := by
  induction l with
  | nil => simp [insertLe]
  | cons y ys ih =>
    simp only [insertLe]
    cases h : le x y
    · simp only [Bool.false_eq_true, if_false]
      exact (List.Perm.cons y ih).trans (List.Perm.swap x y ys)
    · simp

theorem sortLe_perm (le : α → α → Bool) (l : List α) :
    List.Perm (sortLe le l) l := by
  induction l with
  | nil => simp [sortLe]
  | cons x xs ih =>
    exact (insertLe_perm le x (sortLe le xs)).trans (List.Perm.cons x ih)

theorem mem_sortLe_iff (le : α → α → Bool) (l : List α) (x : α) :
    x ∈ sortLe le l ↔ x ∈ l :=
  (sortLe_perm le l).mem_iff

theorem sortLe_length (le : α → α → Bool) (l : List α) :
    (sortLe le l).length = l.length :=
  (sortLe_perm le l).length_eq

theorem insertLe_pairwise (le : α → α → Bool)
    (htrans : ∀ a b c : α, le a b = true → le b c = true → le a c = true)
    (htot : ∀ a b : α, le a b = true ∨ le b a = true) (x : α) (l : List α)
    (hl : l.Pairwise (fun a b => le a b = true)) :
    (insertLe le x l).Pairwise (fun a b => le a b = true) := by
  induction l with
  | nil => simp [insertLe]
  | cons y ys ih =>
    rcases List.pairwise_cons.mp hl with ⟨hy, hys⟩
    simp only [insertLe]
    cases h : le x y
    · simp only [Bool.false_eq_true, if_false]
      refine List.pairwise_cons.mpr ⟨?_, ih hys⟩
      intro z hz
      rcases List.mem_cons.mp ((insertLe_perm le x ys).mem_iff.mp hz) with rfl | h'
      · rcases htot z y with h' | h'
        · exact absurd h' (by simp [h])
        · exact h'
      · exact hy z h'
    · simp only [if_true]
      refine List.pairwise_cons.mpr ⟨?_, hl⟩
      intro z hz
      rcases List.mem_cons.mp hz with rfl | hz
      · exact h
      · exact htrans x y z h (hy z hz)

theorem sortLe_pairwise (le : α → α → Bool)
    (htrans : ∀ a b c : α, le a b = true → le b c = true → le a c = true)
    (htot : ∀ a b : α, le a b = true ∨ le b a = true) (l : List α) :
    (sortLe le l).Pairwise (fun a b => le a b = true) := by
  induction l with
  | nil => simp [sortLe]
  | cons x xs ih => exact insertLe_pairwise le htrans htot x (sortLe le xs) ih

theorem insertLe_all_false (le : α → α → Bool) (x : α) (l : List α)
    (h : ∀ y ∈ l, le x y = false) : insertLe le x l = l ++ [x] := by
  induction l with
  | nil => simp [insertLe]
  | cons y ys ih =>
    have hy : le x y = false := h y (List.mem_cons_self y ys)
    simp only [insertLe, hy, Bool.false_eq_true, if_false, List.cons_append,
      List.cons.injEq, true_and]
    exact ih (fun z hz => h z (List.mem_cons_of_mem y hz))

/-- Sorting a list in which every element refuses to precede every later
element reverses the list (used for inputs saved in strictly increasing
timestamp order, read back in descending order). -/
theorem sortLe_of_antisorted (le : α → α → Bool) (l : List α)
    (h : l.Pairwise (fun a b => le a b = false)) :
    sortLe le l = l.reverse := by
  induction l with
  | nil => simp [sortLe]
  | cons x xs ih =>
    rcases List.pairwise_cons.mp h with ⟨hx, hxs⟩
    simp only [sortLe, ih hxs, List.reverse_cons]
    exact insertLe_all_false le x xs.reverse
      (fun y hy => hx y (List.mem_reverse.mp hy))

theorem lookupKey_setKey_self (k : String) (v : α) (l : List (String × α)) :
    lookupKey k (setKey k v l) = some v := by
  induction l with
  | nil => simp [setKey, lookupKey]
  | cons p t ih =>
    obtain ⟨a, b⟩ := p
    by_cases h : a = k
    · simp [setKey, h, lookupKey]
    · simp [setKey, h, lookupKey, ih]

theorem lookupKey_setKey_ne (k k' : String) (v : α) (l : List (String × α))
    (h : k' ≠ k) : lookupKey k' (setKey k v l) = lookupKey k' l := by
  have hk : ¬(k = k') := fun h' => h h'.symm
  induction l with
  | nil => simp [setKey, lookupKey, hk]
  | cons p t ih =>
    obtain ⟨a, b⟩ := p
    by_cases ha : a = k
    · subst ha
      simp [setKey, lookupKey, hk]
    · by_cases ha' : a = k'
      · simp [setKey, ha, lookupKey, ha', h]
      · simp [setKey, ha, lookupKey, ha', ih]

theorem lookupKey_updateKey_self (k : String) (f : α → α) (l : List (String × α)) :
    lookupKey k (updateKey k f l) = (lookupKey k l).map f := by
  induction l with
  | nil => simp [updateKey, lookupKey]
  | cons p t ih =>
    obtain ⟨a, b⟩ := p
    by_cases h : a = k
    · simp [updateKey, h, lookupKey]
    · simp [updateKey, h, lookupKey, ih]

theorem lookupKey_updateKey_ne (k k' : String) (f : α → α) (l : List (String × α))
    (h : k' ≠ k) : lookupKey k' (updateKey k f l) = lookupKey k' l := by
  have hk : ¬(k = k') := fun h' => h h'.symm
  induction l with
  | nil => simp [updateKey, lookupKey]
  | cons p t ih =>
    obtain ⟨a, b⟩ := p
    by_cases ha : a = k
    · subst ha
      simp [updateKey, lookupKey, hk]
    · by_cases ha' : a = k'
      · simp [updateKey, ha, lookupKey, ha', h]
      · simp [updateKey, ha, lookupKey, ha', ih]

theorem lookupKey_append_of_none (k : String) (l l' : List (String × α))
    (h : lookupKey k l = none) : lookupKey k (l ++ l') = lookupKey k l' := by
  induction l with
  | nil => rfl
  | cons p t ih =>
    obtain ⟨a, b⟩ := p
    by_cases ha : a = k
    · simp [lookupKey, ha] at h
    · simp only [lookupKey, ha, if_false] at h
      simp only [List.cons_append, lookupKey, ha, if_false]
      exact ih h

theorem lookupKey_append_of_some (k : String) (l l' : List (String × α)) (v : α)
    (h : lookupKey k l = some v) : lookupKey k (l ++ l') = some v := by
  induction l with
  | nil => simp [lookupKey] at h
  | cons p t ih =>
    obtain ⟨a, b⟩ := p
    by_cases ha : a = k
    · simp only [lookupKey, ha, if_true] at h
      simp only [List.cons_append, lookupKey, ha, if_true]
      exact h
    · simp only [lookupKey, ha, if_false] at h
      simp only [List.cons_append, lookupKey, ha, if_false]
      exact ih h

theorem containsKey_iff_lookupKey (k : String) (l : List (String × α)) :
    containsKey k l = true ↔ (lookupKey k l).isSome := by
  induction l with
  | nil => simp [containsKey, lookupKey]
  | cons p t ih =>
    obtain ⟨a, b⟩ := p
    by_cases ha : a = k
    · simp [containsKey, ha, lookupKey]
    · simp only [containsKey, lookupKey, ha, if_false, Bool.or_eq_true, beq_iff_eq]
      simpa [ha] using ih

theorem mem_of_lookupKey (k : String) (l : List (String × α)) (v : α)
    (h : lookupKey k l = some v) : (k, v) ∈ l := by
  induction l with
  | nil => simp [lookupKey] at h
  | cons p t ih =>
    obtain ⟨a, b⟩ := p
    by_cases ha : a = k
    · simp only [lookupKey, ha, if_true, Option.some.injEq] at h
      subst h
      subst ha
      exact List.mem_cons_self _ _
    · simp only [lookupKey, ha, if_false] at h
      exact List.mem_cons_of_mem (a, b) (ih h)

/-! ## Python exceptions

`ValueError` versus every other `Exception` is the distinction the HTTP
layer of `app.py` observes (ValueError maps to a 4xx response carrying
the error message, any other exception to a generic 5xx response), so
the embedding keeps exactly that distinction. In Python `ValueError` is
a subclass of `Exception`, hence an `except Exception` handler also
catches a `ValueError` raised inside its `try` block. -/

inductive PyErr where
  | valueError (msg : String)
  | exception (msg : String)
deriving DecidableEq, Repr

/-! ## Auth service (services/auth_service.py)

Users live in a Firestore collection modelled as an association list
from auto-generated document id to user document. The bcrypt library is
an external collaborator and is passed in as a hash function `hashpw`
(registration) or a check predicate `checkpw` (login). Time is passed
explicitly. -/

structure UserDoc where
  username : String
  email : String
  password : String
  created_at : Int
deriving DecidableEq, Repr

abbrev UserStore := List (String × UserDoc)

/-- Record returned by `register_user`: the created user minus the
password hash (the Python dict has exactly these four keys). -/
structure RegisteredUser where
  user_id : String
  username : String
  email : String
  created_at : Int
deriving DecidableEq, Repr

/-- Embedding of `AuthService.register_user`. The duplicate-email check
runs inside a `try` block whose `except Exception` handler re-raises
everything — including the `ValueError("Email already registered")`
raised by the check itself, since `ValueError` is an `Exception` — as
`Exception("Database connection failed")`. `newId` is the fresh
document id generated by `self.users_collection.document()` and `now`
is `datetime.utcnow()`. -/
def register_user (hashpw : String → String) (store : UserStore)
    (username email password : String) (newId : String) (now : Int) :
    Except PyErr (RegisteredUser × UserStore) :=
  -- try: existing_user = users.where('email', '==', email).get()
  --      if existing_user: raise ValueError("Email already registered")
  -- except Exception: raise Exception("Database connection failed")
  let tryCheck : Except PyErr Unit :=
    let existing_user := store.filter (fun kv => kv.2.email == email)
    if existing_user.isEmpty then .ok () else .error (.valueError "Email already registered")
  match tryCheck with
  | .error _ => .error (.exception "Database connection failed")
  | .ok () =>
    let hashed_password := hashpw password
    let created_at := now
    let user_data : UserDoc :=
      { username := username, email := email, password := hashed_password,
        created_at := created_at }
    -- second try block: only Firestore write failures are caught there,
    -- and the pure store model has none
    .ok ({ user_id := newId, username := username, email := email,
           created_at := created_at },
         store ++ [(newId, user_data)])

/-! ## JWT token model

PyJWT is an external collaborator; its HS256 encode/decode contract is
modelled by an executable codec. A token value is either a raw JWT
(payload `user_id`/`exp` plus a signature over the payload with the
secret) or a string with the `"Bearer "` prefix in front of a token.
`jwt.decode` fails on a bad signature and on `exp` lying strictly in
the past (PyJWT's `_validate_exp` with zero leeway). -/

inductive TokenStr where
  | bearer (t : TokenStr)
  | jwt (user_id : String) (exp : Int) (sig : String)
deriving DecidableEq, Repr

/-- HS256 signature model: a tag determined by secret and payload. -/
def jwtSig (secret user_id : String) (exp : Int) : String :=
  "HS256|" ++ secret ++ "|" ++ user_id ++ "|" ++ toString exp

/-- Model of `jwt.encode(payload, secret, algorithm='HS256')`. -/
def jwtEncode (secret user_id : String) (exp : Int) : TokenStr :=
  .jwt user_id exp (jwtSig secret user_id exp)

/-- Model of `jwt.decode(token, secret, algorithms=['HS256'])` at
wall-clock time `now`: `none` models a raised `InvalidTokenError` or
`ExpiredSignatureError`. A string still carrying the `Bearer ` prefix
is not a well-formed JWT and fails to decode. -/
def jwtDecode (secret : String) (now : Int) : TokenStr → Option String
  | .bearer _ => none
  | .jwt user_id exp sig =>
    if sig == jwtSig secret user_id exp && !(exp < now) then some user_id else none

/-- Seconds in the fixed token validity window (`self.jwt_expires`,
"30 days (1 month)"). -/
def jwt_expires : Nat := 2592000

/-- Embedding of `AuthService.generate_token`: payload carries the user
id and `exp = datetime.utcnow() + timedelta(seconds=self.jwt_expires)`. -/
def generate_token (secret user_id : String) (now : Int) : TokenStr :=
  jwtEncode secret user_id (now + (jwt_expires : Int))

/-- Embedding of `AuthService.verify_token`: strip one `Bearer ` prefix
if present, decode, and convert every decode failure (the bare
`except:`) into `ValueError("Token is invalid")`. -/
def verify_token (secret : String) (now : Int) (token : TokenStr) :
    Except PyErr String :=
  let token := match token with
    | .bearer inner => inner
    | t => t
  match jwtDecode secret now token with
  | some user_id => .ok user_id
  | none => .error (.valueError "Token is invalid")

/-- The user sub-dict returned by `login_user`. -/
structure LoginUser where
  id : String
  username : String
  email : String
  created_at : Int
deriving DecidableEq, Repr

/-- The dict returned by `login_user` on success. -/
structure LoginResult where
  user : LoginUser
  token : TokenStr
  expires_in : Nat
deriving DecidableEq, Repr

/-- Embedding of `AuthService.login_user`. The email lookup and the
`ValueError("Invalid credentials")` for an unknown email sit inside a
`try` block whose `except Exception` handler re-raises everything as
`Exception("Database connection failed")`; the password check and its
own `ValueError("Invalid credentials")` sit outside that block. -/
def login_user (checkpw : String → String → Bool) (secret : String)
    (store : UserStore) (email password : String) (now : Int) :
    Except PyErr LoginResult :=
  -- try: user_docs = users.where('email', '==', email).get()
  --      if not user_docs: raise ValueError("Invalid credentials")
  --      user = user_docs[0].to_dict(); user['id'] = user_docs[0].id
  -- except Exception: raise Exception("Database connection failed")
  let tryFind : Except PyErr (String × UserDoc) :=
    match store.filter (fun kv => kv.2.email == email) with
    | [] => .error (.valueError "Invalid credentials")
    | kv :: _ => .ok kv
  match tryFind with
  | .error _ => .error (.exception "Database connection failed")
  | .ok (docId, user) =>
    if !(checkpw password user.password) then
      .error (.valueError "Invalid credentials")
    else
      let token := generate_token secret docId now
      .ok { user := { id := docId, username := user.username,
                      email := user.email, created_at := user.created_at },
            token := token, expires_in := jwt_expires }

/-! ## Chat service glue (services/chat_service.py)

`ChatService.send_message` wraps the agent calls in a `try` whose
handler returns an apology dict. The hosted LangGraph agent is an
external collaborator, so its combined outcome (history fetch plus
`process_message`) is a parameter: `.ok reply` for a normal reply,
`.error e` when any exception `e` is raised. The success dict carries a
`session_id` key, the failure dict does not; the `session_id : Option`
field records presence of that key. -/

structure ChatResponse where
  message : String
  user_message : String
  session_id : Option String
  timestamp : Int
deriving DecidableEq, Repr

/-- The fixed apology text returned when the agent fails. -/
def apology_message : String :=
  "Sorry, I'm having trouble processing your request right now."

/-- Model of Python `session_id or "default"` (both `None` and the empty
string are falsy). -/
def sidOrDefault : Option String → String
  | none => "default"
  | some s => if s = "" then "default" else s

/-- Embedding of `ChatService.send_message` (the
`self.langgraph_agent is None` branch is dead code: the constructor
always installs an agent). -/
def send_message (agentOutcome : Except String String)
    (user_id message : String) (session_id : Option String) (now : Int) :
    ChatResponse :=
  match agentOutcome with
  | .ok ai_response =>
    { message := ai_response, user_message := message,
      session_id := some (sidOrDefault session_id), timestamp := now }
  | .error _ =>
    { message := apology_message, user_message := message,
      session_id := none, timestamp := now }

deriving instance DecidableEq for Except

/-! ## Concrete bcrypt model for evaluation

For concrete evaluations the abstract bcrypt pair is instantiated with
an executable model satisfying the library contract used by the code:
`checkpw p (hashpw p) = true`, and distinct passwords do not match. -/

def modelHashpw (password : String) : String := "bcrypt$" ++ password

def modelCheckpw (password hashed : String) : Bool :=
  hashed == modelHashpw password

/-- A stored user for concrete evaluations. -/
def demoUser : UserDoc :=
  { username := "alice", email := "a@b.c", password := modelHashpw "right",
    created_at := 0 }

/-- C1: registering a duplicate email does NOT fail with the
duplicate-email `ValueError`: the `except Exception` handler around the
uniqueness check catches the service's own
`ValueError("Email already registered")` (a `ValueError` is an
`Exception` in Python) and re-raises it as the generic
`Exception("Database connection failed")`, which `app.py` turns into a
500 "Registration failed" instead of the intended 400. The first
registration with a fresh email succeeds as claimed: it appends exactly
one user document and returns the created record (with no password
field) under the fresh document id. -/
theorem register_duplicate_email_masked :
    register_user modelHashpw [("id0", demoUser)] "bob" "a@b.c" "pw" "newid" 5
      = .error (.exception "Database connection failed") ∧
    register_user modelHashpw [("id0", demoUser)] "bob" "a@b.c" "pw" "newid" 5
      ≠ .error (.valueError "Email already registered") ∧
    register_user modelHashpw [("id0", demoUser)] "bob" "fresh@b.c" "pw" "newid" 5
      = .ok ({ user_id := "newid", username := "bob", email := "fresh@b.c",
               created_at := 5 },
             [("id0", demoUser),
              ("newid", { username := "bob", email := "fresh@b.c",
                          password := modelHashpw "pw", created_at := 5 })]) := by
  refine ⟨?_, ?_, ?_⟩ <;> decide

/-- C2: a login with an unknown email does NOT fail with the
invalid-credentials `ValueError`: the `except Exception` handler around
the email lookup catches the service's own
`ValueError("Invalid credentials")` and re-raises it as the generic
`Exception("Database connection failed")` (a 500 "Login failed" at the
HTTP layer instead of the intended 401). A correct email with a wrong
password, whose check sits outside that `try` block, does fail with
`ValueError("Invalid credentials")`, and a correct password logs in
with a token and the 30-day `expires_in`. -/
theorem login_unknown_email_error_kind :
    login_user modelCheckpw "sec" [("id0", demoUser)] "nobody@b.c" "pw" 0
      = .error (.exception "Database connection failed") ∧
    login_user modelCheckpw "sec" [("id0", demoUser)] "nobody@b.c" "pw" 0
      ≠ .error (.valueError "Invalid credentials") ∧
    login_user modelCheckpw "sec" [("id0", demoUser)] "a@b.c" "wrong" 0
      = .error (.valueError "Invalid credentials") ∧
    login_user modelCheckpw "sec" [("id0", demoUser)] "a@b.c" "right" 0
      = .ok { user := { id := "id0", username := "alice", email := "a@b.c",
                        created_at := 0 },
              token := generate_token "sec" "id0" 0,
              expires_in := jwt_expires } := by
  refine ⟨?_, ?_, ?_, ?_⟩ <;> decide

/-- C9: token round-trip and expiry. A token generated for a user id
carries expiry `now + jwt_expires` where `jwt_expires` is exactly 30
days of seconds; verifying it at any time not past that expiry returns
the same user id, both bare and with a `Bearer ` prefix (which
`verify_token` strips first); and any raw token whose expiry lies
strictly in the past is rejected with `ValueError("Token is invalid")`. -/
theorem token_roundtrip_and_expiry (secret user_id : String)
    (issued verifiedAt : Int) (h : verifiedAt ≤ issued + (jwt_expires : Int)) :
    jwt_expires = 30 * 24 * 60 * 60 ∧
    verify_token secret verifiedAt (generate_token secret user_id issued)
      = .ok user_id ∧
    verify_token secret verifiedAt (.bearer (generate_token secret user_id issued))
      = .ok user_id ∧
    (∀ (uid' sig : String) (exp now : Int), exp < now →
      verify_token secret now (.jwt uid' exp sig)
        = .error (.valueError "Token is invalid")) := by
  refine ⟨rfl, ?_, ?_, ?_⟩
  · have hexp : ¬((issued + (jwt_expires : Int)) < verifiedAt) := not_lt.mpr h
    simp [verify_token, generate_token, jwtEncode, jwtDecode, hexp]
  · have hexp : ¬((issued + (jwt_expires : Int)) < verifiedAt) := not_lt.mpr h
    simp [verify_token, generate_token, jwtEncode, jwtDecode, hexp]
  · intro uid' sig exp now hlt
    simp only [verify_token, jwtDecode]
    by_cases hsig : sig == jwtSig secret uid' exp
    · simp [hsig, hlt]
    · simp [hsig]

/-- C9 witness: concrete instantiation of the round-trip theorem. -/
theorem token_roundtrip_and_expiry_witness :
    verify_token "s3cr3t" 100 (generate_token "s3cr3t" "user-42" 100)
      = .ok "user-42" ∧
    verify_token "s3cr3t" 100 (.jwt "user-42" 99 "x")
      = .error (.valueError "Token is invalid") := by
  have h := token_roundtrip_and_expiry "s3cr3t" "user-42" 100 100 (by decide)
  exact ⟨h.2.1, h.2.2.2 "user-42" "x" 99 100 (by decide)⟩

/-- C10: when the Chat Agent raises any exception, `send_message` does
not propagate it: it returns the dict with the fixed apology string as
`message`, echoing only `user_message` and `timestamp`, and — unlike
the success dict — carrying no `session_id` key, for every user,
message, session id and failure. -/
theorem send_message_agent_failure_shape (exc user_id message : String)
    (session_id : Option String) (now : Int) :
    send_message (.error exc) user_id message session_id now
      = { message := apology_message, user_message := message,
          session_id := none, timestamp := now } ∧
    (send_message (.error exc) user_id message session_id now).session_id
      = none ∧
    (∀ reply : String,
      (send_message (.ok reply) user_id message session_id now).session_id
        = some (sidOrDefault session_id)) := by
  exact ⟨rfl, rfl, fun _ => rfl⟩

/-! ## Chat history service (services/chat_history_service.py)

Message documents live in the `messages` collection, session metadata
documents in the `user_sessions` collection; both are association lists
from document id to document. The `metadata` sub-dict of a message is
flattened into fields (all message documents are written by
`save_message`, so every key is always present). Timestamps are
integers; `created_at` stores the `isoformat()` serialisation of the
timestamp, modelled by an injective, never-empty rendering. -/

structure Message where
  user_id : String
  session_id : String
  user_message : String
  assistant_response : String
  message_length : Nat
  response_length : Nat
  timestamp : Int
  created_at : String
  message_type : String
  user_message_tokens : Nat
  assistant_response_tokens : Nat
  is_greeting : Bool
  contains_food_keywords : Bool
  session_created_at : String
deriving DecidableEq, Repr

abbrev MsgStore := List (String × Message)

/-- Model of `datetime.isoformat()` on the integer timestamps used
here: injective and never the empty string. -/
def isoformat (t : Int) : String := "iso:" ++ toString t

/-- The greeting keyword list of `_is_greeting`. -/
def greeting_keywords : List String :=
  ["hello", "hi", "hey", "good morning", "good afternoon", "good evening",
   "namaste", "namaskar"]

/-- Embedding of `ChatHistoryService._is_greeting`. -/
def is_greeting_check (message : String) : Bool :=
  let message_lower := strTrim (strLower message)
  greeting_keywords.any (fun g => strContains message_lower g)

/-- The food keyword list of `_contains_food_keywords`. -/
def food_keywords : List String :=
  ["food", "meal", "lunch", "dinner", "breakfast", "recipe", "cook", "eat",
   "hungry", "vegetarian", "vegan", "spicy", "sweet", "salty", "healthy",
   "nutrition", "dal", "rice", "curry", "biryani", "paneer", "chicken",
   "fish", "vegetables"]

/-- Embedding of `ChatHistoryService._contains_food_keywords`. -/
def contains_food_keywords_check (message : String) : Bool :=
  let message_lower := strLower message
  food_keywords.any (fun k => strContains message_lower k)

/-- The message document built by `save_message` (its `message_doc`
dict, metadata flattened). -/
def buildMessageDoc (user_id message response : String)
    (session_id : Option String) (timestamp : Int) : Message :=
  { user_id := user_id
    session_id := sidOrDefault session_id
    user_message := message
    assistant_response := response
    message_length := strLen message
    response_length := strLen response
    timestamp := timestamp
    created_at := isoformat timestamp
    message_type := "conversation"
    user_message_tokens := wordCount message
    assistant_response_tokens := wordCount response
    is_greeting := is_greeting_check message
    contains_food_keywords := contains_food_keywords_check message
    session_created_at := isoformat timestamp }

/-- Embedding of `ChatHistoryService.save_message`: append the document
under the fresh auto-generated id `newId` and report success (the pure
store raises no exceptions, so the `except` branch returning `False` is
unreachable). -/
def save_message (store : MsgStore) (user_id message response : String)
    (session_id : Option String) (timestamp : Int) (newId : String) :
    Bool × MsgStore :=
  (true, store ++ [(newId, buildMessageDoc user_id message response session_id timestamp)])

/-- Model of the optional `query.where("session_id", "==", session_id)`
guarded by `if session_id:` — both `None` and the empty string skip the
session filter. -/
def sessionMatch (session_id : Option String) (m : Message) : Bool :=
  match session_id with
  | none => true
  | some s => if s = "" then true else m.session_id == s

/-- The Firestore filter of the user's messages, optionally narrowed to
one session. -/
def userMessages (store : MsgStore) (user_id : String)
    (session_id : Option String) : MsgStore :=
  store.filter (fun kv => kv.2.user_id == user_id && sessionMatch session_id kv.2)

/-- Descending `order_by("timestamp")` comparison: `a` may precede `b`
when its timestamp is not smaller. -/
def tsDescLe (a b : String × Message) : Bool := decide (b.2.timestamp ≤ a.2.timestamp)

/-- Embedding of `ChatHistoryService.get_conversation_history`: filter
by user (and optionally session), order by timestamp descending, take
`limit`, convert each document to a dict carrying the document id plus
all stored fields, and reverse into chronological order. The returned
pairs (id, document) carry exactly the content of those dicts. -/
def get_conversation_history (store : MsgStore) (user_id : String)
    (session_id : Option String) (limit : Nat) : List (String × Message) :=
  (((sortLe tsDescLe (userMessages store user_id session_id)).take limit)).reverse

/-- The case-insensitive match test of `search_conversation` on one
history entry: the lowered query occurs in the lowered stored user text
or the lowered stored assistant text. -/
def matchesQuery (query : String) (kv : String × Message) : Bool :=
  strContains (strLower kv.2.user_message) (strLower query) ||
  strContains (strLower kv.2.assistant_response) (strLower query)

/-- Embedding of `ChatHistoryService.search_conversation`: fetch the
conversation history with `limit=100` (no session filter), keep the
entries matching the query, and return the first `limit` of them. -/
def search_conversation (store : MsgStore) (user_id query : String)
    (limit : Nat) : List (String × Message) :=
  ((get_conversation_history store user_id none 100).filter
    (matchesQuery query)).take limit

/-- Embedding of `ChatHistoryService.clear_conversation_history`:
stream the matching documents and delete each one by its reference. -/
def clear_conversation_history (store : MsgStore) (user_id : String)
    (session_id : Option String) : Bool × MsgStore :=
  let docs := userMessages store user_id session_id
  (true, docs.foldl (fun acc kv => acc.filter (fun kv' => kv'.1 != kv.1)) store)

/-! ### Session metadata (create_session / session_exists) -/

/-- A `user_sessions` metadata document (the zero-initialised
`metadata` counters sub-dict, written once and never read anywhere in
the repository, is elided). -/
structure SessionDoc where
  user_id : String
  session_id : String
  session_name : String
  created_at : String
  status : String
deriving DecidableEq, Repr

abbrev SessionStore := List (String × SessionDoc)

/-- Embedding of `ChatHistoryService.create_session`: generate a fresh
session id (`newSessionId`, the `uuid.uuid4()` value), write one
metadata document — via `.add(...)`, i.e. under a Firestore
auto-generated document id `autoDocId`, not under any id derived from
the user or session — write no Message, and return the session id.
`nowStr` stands for the formatted `datetime.now()` strings. -/
def create_session (sessions : SessionStore) (user_id : String)
    (session_name : Option String) (newSessionId autoDocId nowStr : String) :
    String × SessionStore :=
  let doc : SessionDoc :=
    { user_id := user_id
      session_id := newSessionId
      session_name :=
        match session_name with
        | none => "Session " ++ nowStr
        | some n => if n = "" then "Session " ++ nowStr else n
      created_at := nowStr
      status := "active" }
  (newSessionId, sessions ++ [(autoDocId, doc)])

/-- Embedding of `ChatHistoryService.session_exists`: true when the
`limit(1)` query over the user's messages in that session is non-empty,
or when the `user_sessions` document whose id is the literal
`f"{user_id}_{session_id}"` exists. -/
def session_exists (messages : MsgStore) (sessions : SessionStore)
    (user_id session_id : String) : Bool :=
  let found :=
    (messages.filter (fun kv =>
      kv.2.user_id == user_id && kv.2.session_id == session_id)).take 1
  decide (found.length > 0) || containsKey (user_id ++ "_" ++ session_id) sessions

/-- C3: a freshly created session is invisible to `session_exists`.
`create_session` stores its metadata document via `.add(...)`, i.e.
under an auto-generated document id, while `session_exists` looks the
metadata up under the composite document id `f"{user_id}_{session_id}"`
— an id nothing in the repository ever writes. Hence immediately after
`create_session` (which writes no Message), `session_exists` on the
returned session id is `false`, although the session's metadata
document is right there in the collection. -/
theorem session_exists_after_create_session :
    (create_session [] "u1" none "sess-uuid-1" "aUtoDoc1" "t0").1
      = "sess-uuid-1" ∧
    (create_session [] "u1" none "sess-uuid-1" "aUtoDoc1" "t0").2
      = [("aUtoDoc1",
          { user_id := "u1", session_id := "sess-uuid-1",
            session_name := "Session t0", created_at := "t0",
            status := "active" })] ∧
    session_exists [] (create_session [] "u1" none "sess-uuid-1" "aUtoDoc1" "t0").2
      "u1" "sess-uuid-1" = false := by
  refine ⟨rfl, rfl, ?_⟩
  decide

/-! ### Deletion (clear_conversation_history) -/

theorem foldl_delete_eq_filter (docs : List (String × Message)) (S : MsgStore) :
    docs.foldl (fun acc kv => acc.filter (fun kv' => kv'.1 != kv.1)) S
      = S.filter (fun kv' => !((docs.map Prod.fst).contains kv'.1)) := by
  induction docs generalizing S with
  | nil => simp
  | cons d ds ih =>
    simp only [List.foldl_cons, ih, List.filter_filter, List.map_cons]
    refine List.filter_congr ?_
    intro kv' _
    by_cases h1 : kv'.1 = d.1
    · simp [h1]
    · have h1' : ¬ d.1 = kv'.1 := fun h => h1 h.symm
      simp [bne, h1, h1', Bool.and_comm]

/-- C8 frame property of `clear_conversation_history` on a store with
distinct document ids: clearing one user's session yields exactly the
sublist of documents that do not match that user and session — every
matching Message is deleted, every Message of another session or
another user survives unchanged (order included); the call reports
success. -/
theorem clear_conversation_frame (S : MsgStore) (u sid : String)
    (hnd : (S.map Prod.fst).Nodup) (hsid : sid ≠ "") :
    (clear_conversation_history S u (some sid)).1 = true ∧
    (clear_conversation_history S u (some sid)).2
      = S.filter (fun kv => !(kv.2.user_id == u && kv.2.session_id == sid)) ∧
    (∀ kv ∈ (clear_conversation_history S u (some sid)).2,
      ¬(kv.2.user_id = u ∧ kv.2.session_id = sid)) ∧
    (∀ kv ∈ S, ¬(kv.2.user_id = u ∧ kv.2.session_id = sid) →
      kv ∈ (clear_conversation_history S u (some sid)).2) := by
  have hmain : (clear_conversation_history S u (some sid)).2
      = S.filter (fun kv => !(kv.2.user_id == u && kv.2.session_id == sid)) := by
    unfold clear_conversation_history
    simp only [foldl_delete_eq_filter]
    refine List.filter_congr ?_
    intro kv hkv
    have hpred : ((userMessages S u (some sid)).map Prod.fst).contains kv.1
        = (kv.2.user_id == u && kv.2.session_id == sid) := by
      by_cases hmatch : kv.2.user_id = u ∧ kv.2.session_id = sid
      · have hin : kv ∈ userMessages S u (some sid) := by
          unfold userMessages
          refine List.mem_filter.mpr ⟨hkv, ?_⟩
          simp [sessionMatch, hsid, hmatch.1, hmatch.2]
        have hmem : kv.1 ∈ (userMessages S u (some sid)).map Prod.fst :=
          List.mem_map_of_mem Prod.fst hin
        have hc : ((userMessages S u (some sid)).map Prod.fst).contains kv.1
            = true := List.elem_eq_true_of_mem hmem
        rw [hc]
        simp [hmatch.1, hmatch.2]
      · have hnotin : ¬ kv.1 ∈ (userMessages S u (some sid)).map Prod.fst := by
          intro hmem
          rcases List.mem_map.mp hmem with ⟨kv', hkv', hfst⟩
          have hkv'S : kv' ∈ S := List.mem_of_mem_filter hkv'
          have heq : kv' = kv :=
            List.inj_on_of_nodup_map hnd hkv'S hkv hfst
          subst heq
          have hp := (List.mem_filter.mp hkv').2
          simp only [Bool.and_eq_true, beq_iff_eq, sessionMatch, hsid,
            if_false] at hp
          exact hmatch ⟨hp.1, by simpa using hp.2⟩
        have hc : ((userMessages S u (some sid)).map Prod.fst).contains kv.1
            = false := by
          cases hc : ((userMessages S u (some sid)).map Prod.fst).contains kv.1
          · rfl
          · exact absurd (List.mem_of_elem_eq_true hc) hnotin
        rw [hc]
        by_cases h1 : kv.2.user_id = u
        · have h2 : kv.2.session_id ≠ sid := fun h2 => hmatch ⟨h1, h2⟩
          simp [h1, h2]
        · simp [h1]
    rw [hpred]
  refine ⟨rfl, hmain, ?_, ?_⟩
  · intro kv hkv
    rw [hmain] at hkv
    have hp := (List.mem_filter.mp hkv).2
    intro hcon
    simp [hcon.1, hcon.2] at hp
  · intro kv hkv hcon
    rw [hmain]
    refine List.mem_filter.mpr ⟨hkv, ?_⟩
    by_cases h1 : kv.2.user_id = u
    · have h2 : kv.2.session_id ≠ sid := fun h2 => hcon ⟨h1, h2⟩
      simp [h1, h2]
    · simp [h1]

/-- Demo messages for concrete evaluations of the history service. -/
def msgA1 : Message := buildMessageDoc "u1" "hi there" "Hello!" (some "A") 1

def msgA2 : Message := buildMessageDoc "u1" "dal recipe" "Sure, dal." (some "A") 2

def msgB1 : Message := buildMessageDoc "u1" "pasta" "Pasta it is." (some "B") 3

def msgOther : Message := buildMessageDoc "u2" "hello" "Hey." (some "A") 4

/-- A demo store holding messages of two sessions of user `u1` and one
message of user `u2`. -/
def demoStore : MsgStore :=
  [("d1", msgA1), ("d2", msgA2), ("d3", msgB1), ("d4", msgOther)]

/-- C8 witness: clearing session `A` of user `u1` on the demo store
keeps exactly the session-`B` message and the other user's message. -/
theorem clear_conversation_frame_witness :
    (clear_conversation_history demoStore "u1" (some "A")).2
      = [("d3", msgB1), ("d4", msgOther)] ∧
    ("d1", msgA1) ∉ (clear_conversation_history demoStore "u1" (some "A")).2 := by
  have h := clear_conversation_frame demoStore "u1" "A" (by decide) (by decide)
  constructor
  · rw [h.2.1]
    decide
  · intro hmem
    exact h.2.2.1 ("d1", msgA1) hmem (by constructor <;> decide)

/-! ### History round-trip (save_message then get_conversation_history) -/

/-- One exchange to be saved: fresh document id, user text, assistant
text, timestamp. -/
structure SaveItem where
  docId : String
  message : String
  response : String
  timestamp : Int
deriving DecidableEq, Repr

/-- Save a list of exchanges in order via `save_message`. -/
def saveAll (store : MsgStore) (user_id : String) (session_id : Option String)
    (items : List SaveItem) : MsgStore :=
  items.foldl
    (fun acc it =>
      (save_message acc user_id it.message it.response session_id it.timestamp it.docId).2)
    store

theorem saveAll_eq_append (store : MsgStore) (user_id : String)
    (session_id : Option String) (items : List SaveItem) :
    saveAll store user_id session_id items
      = store ++ items.map (fun it =>
          (it.docId, buildMessageDoc user_id it.message it.response session_id it.timestamp)) := by
  induction items generalizing store with
  | nil => simp [saveAll]
  | cons it items ih =>
    simp only [saveAll, List.foldl_cons, List.map_cons] at ih ⊢
    rw [ih, save_message, List.append_assoc, List.singleton_append]

/-- C7: history round-trip. Starting from any store holding no Message
of user `u` in session `sid`, saving the exchanges `items` (fresh doc
ids, strictly increasing timestamps) for that session and then reading
the session history with any `limit ≥ N` returns exactly those `N`
exchanges, as the documents `save_message` built for them, in
chronological (oldest-first, i.e. save) order. -/
theorem history_roundtrip (S : MsgStore) (u sid : String)
    (items : List SaveItem) (limit : Nat)
    (hS : ∀ kv ∈ S, ¬(kv.2.user_id = u ∧ kv.2.session_id = sid))
    (hsid : sid ≠ "")
    (hts : items.Pairwise (fun a b => a.timestamp < b.timestamp))
    (hlim : items.length ≤ limit) :
    get_conversation_history (saveAll S u (some sid) items) u (some sid) limit
      = items.map (fun it =>
          (it.docId, buildMessageDoc u it.message it.response (some sid) it.timestamp)) := by
  have hdef : sidOrDefault (some sid) = sid := by
    simp [sidOrDefault, hsid]
  set newDocs := items.map (fun it =>
    (it.docId, buildMessageDoc u it.message it.response (some sid) it.timestamp)) with hnew
  have hfilter : userMessages (saveAll S u (some sid) items) u (some sid) = newDocs := by
    rw [saveAll_eq_append]
    unfold userMessages
    rw [List.filter_append]
    have h1 : S.filter (fun kv => kv.2.user_id == u && sessionMatch (some sid) kv.2)
        = [] := by
      rw [List.filter_eq_nil_iff]
      intro kv hkv
      simp only [Bool.and_eq_true, beq_iff_eq, sessionMatch, hsid, if_false,
        not_and]
      intro h1 h2
      exact hS kv hkv ⟨h1, by simpa using h2⟩
    have h2 : newDocs.filter (fun kv => kv.2.user_id == u && sessionMatch (some sid) kv.2)
        = newDocs := by
      rw [List.filter_eq_self]
      intro kv hkv
      rw [hnew] at hkv
      rcases List.mem_map.mp hkv with ⟨it, _, rfl⟩
      simp [buildMessageDoc, sessionMatch, hsid, hdef]
    rw [h1, h2, List.nil_append]
  have hsort : sortLe tsDescLe newDocs = newDocs.reverse := by
    refine sortLe_of_antisorted tsDescLe newDocs ?_
    rw [hnew]
    rw [List.pairwise_map]
    refine hts.imp ?_
    intro a b hab
    simp only [tsDescLe, buildMessageDoc, decide_eq_false_iff_not, not_le]
    exact hab
  have hlen : newDocs.reverse.length ≤ limit := by
    rw [List.length_reverse, hnew, List.length_map]
    exact hlim
  unfold get_conversation_history
  rw [hfilter, hsort, List.take_of_length_le hlen, List.reverse_reverse]

/-- C7 witness: two exchanges saved into session `C` of user `u3` on
top of the demo store are read back verbatim in order with limit 5. -/
theorem history_roundtrip_witness :
    get_conversation_history
      (saveAll demoStore "u3" (some "C")
        [{ docId := "n1", message := "first", response := "one", timestamp := 10 },
         { docId := "n2", message := "second", response := "two", timestamp := 11 }])
      "u3" (some "C") 5
      = [("n1", buildMessageDoc "u3" "first" "one" (some "C") 10),
         ("n2", buildMessageDoc "u3" "second" "two" (some "C") 11)] := by
  exact history_roundtrip demoStore "u3" "C"
    [{ docId := "n1", message := "first", response := "one", timestamp := 10 },
     { docId := "n2", message := "second", response := "two", timestamp := 11 }]
    5 (by decide) (by decide) (by decide) (by decide)

/-! ### Search (search_conversation) -/

/-- C5 counterexample: search results come back oldest-first, not in
reverse-chronological order. On the demo store the query "i" matches
all three messages of user `u1` (timestamps 1, 2, 3); with `limit = 1`
the claim mandates the most recent match `("d3", msgB1)`, but the code
filters the chronologically ordered history and caps, returning the
oldest match `("d1", msgA1)`. -/
theorem search_conversation_order_counterexample :
    search_conversation demoStore "u1" "i" 1 = [("d1", msgA1)] ∧
    search_conversation demoStore "u1" "i" 1 ≠ [("d3", msgB1)] ∧
    matchesQuery "i" ("d3", msgB1) = true ∧
    msgA1.timestamp < msgB1.timestamp := by
  refine ⟨?_, ?_, ?_, ?_⟩ <;> decide

theorem get_conversation_history_pairwise (S : MsgStore) (u : String)
    (sid : Option String) (limit : Nat) :
    (get_conversation_history S u sid limit).Pairwise
      (fun a b => a.2.timestamp ≤ b.2.timestamp) := by
  have hsorted : (sortLe tsDescLe (userMessages S u sid)).Pairwise
      (fun a b => tsDescLe a b = true) := by
    refine sortLe_pairwise tsDescLe ?_ ?_ _
    · intro a b c hab hbc
      simp only [tsDescLe, decide_eq_true_eq] at hab hbc ⊢
      exact le_trans hbc hab
    · intro a b
      simp only [tsDescLe, decide_eq_true_eq]
      exact le_total b.2.timestamp a.2.timestamp
  have htake := hsorted.sublist (List.take_sublist limit _)
  unfold get_conversation_history
  rw [List.pairwise_reverse]
  refine htake.imp ?_
  intro a b hab
  simp only [tsDescLe, decide_eq_true_eq] at hab
  exact hab

theorem mem_get_conversation_history (S : MsgStore) (u : String)
    (sid : Option String) (limit : Nat) (kv : String × Message)
    (h : kv ∈ get_conversation_history S u sid limit) :
    kv ∈ S ∧ kv.2.user_id = u ∧ sessionMatch sid kv.2 = true := by
  unfold get_conversation_history at h
  have h1 : kv ∈ sortLe tsDescLe (userMessages S u sid) :=
    List.mem_of_mem_take (List.mem_reverse.mp h)
  have h2 : kv ∈ userMessages S u sid := (mem_sortLe_iff _ _ _).mp h1
  have h3 := List.mem_filter.mp h2
  refine ⟨h3.1, ?_, ?_⟩
  · have := h3.2
    simp only [Bool.and_eq_true, beq_iff_eq] at this
    exact this.1
  · have := h3.2
    simp only [Bool.and_eq_true] at this
    exact this.2

/-- C5, amended: `search_conversation` returns up to `limit` entries,
each a stored message of the user matching the query case-insensitively
in its user or assistant text, ordered chronologically
(oldest-first, not reverse-chronologically); and when the user has at
most 100 stored messages and at most `limit` of them match, every
matching stored message is returned — the cap keeps the EARLIEST
matches of the fetched window, not the latest. -/
theorem search_conversation_spec (S : MsgStore) (u q : String) (lim : Nat)
    (h100 : (userMessages S u none).length ≤ 100)
    (hcount : ((userMessages S u none).filter (matchesQuery q)).length ≤ lim) :
    (∀ kv ∈ search_conversation S u q lim,
        kv ∈ S ∧ kv.2.user_id = u ∧ matchesQuery q kv = true) ∧
    (search_conversation S u q lim).length ≤ lim ∧
    (search_conversation S u q lim).Pairwise
      (fun a b => a.2.timestamp ≤ b.2.timestamp) ∧
    (∀ kv ∈ S, kv.2.user_id = u → matchesQuery q kv = true →
        kv ∈ search_conversation S u q lim) := by
  have hhist : List.Perm (get_conversation_history S u none 100)
      (userMessages S u none) := by
    unfold get_conversation_history
    have hlen : (sortLe tsDescLe (userMessages S u none)).length ≤ 100 := by
      rw [sortLe_length]
      exact h100
    rw [List.take_of_length_le hlen]
    exact (List.reverse_perm _).trans (sortLe_perm _ _)
  have hfilperm : List.Perm
      ((get_conversation_history S u none 100).filter (matchesQuery q))
      ((userMessages S u none).filter (matchesQuery q)) := hhist.filter _
  have hfull : ((get_conversation_history S u none 100).filter
      (matchesQuery q)).take lim
      = (get_conversation_history S u none 100).filter (matchesQuery q) := by
    refine List.take_of_length_le ?_
    rw [hfilperm.length_eq]
    exact hcount
  refine ⟨?_, ?_, ?_, ?_⟩
  · intro kv hkv
    unfold search_conversation at hkv
    have h1 : kv ∈ (get_conversation_history S u none 100).filter (matchesQuery q) :=
      List.mem_of_mem_take hkv
    have h2 := List.mem_filter.mp h1
    have h3 := mem_get_conversation_history S u none 100 kv h2.1
    exact ⟨h3.1, h3.2.1, h2.2⟩
  · exact List.length_take_le lim _
  · unfold search_conversation
    refine List.Pairwise.sublist (List.take_sublist lim _) ?_
    exact (get_conversation_history_pairwise S u none 100).sublist
      (List.filter_sublist _)
  · intro kv hkv hu hq
    unfold search_conversation
    rw [hfull]
    refine List.mem_filter.mpr ⟨?_, hq⟩
    rw [hhist.mem_iff]
    refine List.mem_filter.mpr ⟨hkv, ?_⟩
    simp [hu, sessionMatch]

/-- C5 witness: on the demo store the query "dal" has one match, which
the amended theorem places in the result of a search with limit 10. -/
theorem search_conversation_spec_witness :
    ("d2", msgA2) ∈ search_conversation demoStore "u1" "dal" 10 ∧
    (search_conversation demoStore "u1" "dal" 10).length ≤ 10 := by
  have h := search_conversation_spec demoStore "u1" "dal" 10 (by decide) (by decide)
  exact ⟨h.2.2.2 ("d2", msgA2) (by decide) (by decide) (by decide), h.2.1⟩

/-! ### Session listing (get_user_sessions)

The Python loop iterates the user's messages newest-first, keeps a dict
from session id to an aggregate record, and mutates the record of each
message's session. Both the `first_message` and the `last_message`
slots are guarded by set-once truthiness checks, so both receive the
created_at of the FIRST document streamed for the session — the newest
one. -/

structure SessionInfo where
  session_id : String
  message_count : Nat
  first_message : Option String
  last_message : Option String
  last_activity : Option Int
  total_tokens : Nat
  food_related_messages : Nat
  greeting_messages : Nat
deriving DecidableEq, Repr

/-- The fresh aggregate inserted when a session id is first seen. -/
def defaultSessionInfo (sid : String) : SessionInfo :=
  { session_id := sid, message_count := 0, first_message := none,
    last_message := none, last_activity := none, total_tokens := 0,
    food_related_messages := 0, greeting_messages := 0 }

/-- Python truthiness of the `Optional[str]` slots: `None` and the
empty string are falsy. -/
def optStrFalsy : Option String → Bool
  | none => true
  | some s => s == ""

/-- The unconditional counter updates for one streamed message. -/
def stepCounts (info : SessionInfo) (m : Message) : SessionInfo :=
  { info with
    message_count := info.message_count + 1
    total_tokens := info.total_tokens + m.user_message_tokens
      + m.assistant_response_tokens
    food_related_messages := info.food_related_messages
      + (if m.contains_food_keywords then 1 else 0)
    greeting_messages := info.greeting_messages
      + (if m.is_greeting then 1 else 0) }

/-- `if not sessions[sid]["first_message"]: ... = created_at`. -/
def stepFirst (info : SessionInfo) (m : Message) : SessionInfo :=
  if optStrFalsy info.first_message then
    { info with first_message := some m.created_at }
  else info

/-- `if not sessions[sid]["last_message"]: ...` sets both
`last_message` and `last_activity`. -/
def stepLast (info : SessionInfo) (m : Message) : SessionInfo :=
  if optStrFalsy info.last_message then
    { info with last_message := some m.created_at
                last_activity := some m.timestamp }
  else info

/-- The full body of the per-message loop iteration, in source order. -/
def stepSession (info : SessionInfo) (m : Message) : SessionInfo :=
  stepLast (stepFirst (stepCounts info m) m) m

/-- The grouping loop of `get_user_sessions` over the streamed
(newest-first) messages, threading the sessions dict. -/
def processSessions :
    List (String × SessionInfo) → List (String × Message) →
    List (String × SessionInfo)
  | dict, [] => dict
  | dict, kv :: rest =>
    processSessions
      (updateKey kv.2.session_id (fun i => stepSession i kv.2)
        (if containsKey kv.2.session_id dict then dict
         else dict ++ [(kv.2.session_id, defaultSessionInfo kv.2.session_id)]))
      rest

/-- Sort key of the final `session_list.sort(key=lambda x:
x["last_activity"] or datetime.min, reverse=True)`; the constant 0
stands for `datetime.min` (the slot is never `None` for an aggregate
the loop produced). -/
def lastActivityKey (i : SessionInfo) : Int := i.last_activity.getD 0

/-- Descending comparison on the last-activity key. -/
def sessDescLe (a b : SessionInfo) : Bool :=
  decide (lastActivityKey b ≤ lastActivityKey a)

/-- Embedding of `ChatHistoryService.get_user_sessions`. -/
def get_user_sessions (store : MsgStore) (user_id : String) : List SessionInfo :=
  let stream := sortLe tsDescLe (store.filter (fun kv => kv.2.user_id == user_id))
  sortLe sessDescLe ((processSessions [] stream).map Prod.snd)

/-- C6 counterexample: `first_message` does not report the session's
first (oldest) message. User `u1`'s session `A` holds messages with
created_at "iso:1" (oldest) and "iso:2" (newest); the aggregate reports
`first_message = some "iso:2"` — the newest, equal to `last_message` —
while the claim mandates the first message timestamp "iso:1". -/
theorem get_user_sessions_first_message_counterexample :
    msgA1.created_at = "iso:1" ∧ msgA2.created_at = "iso:2" ∧
    (get_user_sessions demoStore "u1").map
        (fun i => (i.session_id, i.first_message, i.last_message))
      = [("B", some "iso:3", some "iso:3"), ("A", some "iso:2", some "iso:2")] ∧
    (∀ i ∈ get_user_sessions demoStore "u1",
      i.session_id = "A" → i.first_message ≠ some "iso:1") := by
  refine ⟨rfl, rfl, by decide, by decide⟩

/-- The messages of one session, in stream order. -/
def sessionMsgs (sid : String) (stream : List (String × Message)) : List Message :=
  (stream.map Prod.snd).filter (fun m => m.session_id == sid)

/-- Folding the loop body over a list of messages of one session. -/
def applySession (info : SessionInfo) (ms : List Message) : SessionInfo :=
  ms.foldl stepSession info

theorem stepFirst_preserves (i : SessionInfo) (m : Message) :
    (stepFirst i m).session_id = i.session_id ∧
    (stepFirst i m).message_count = i.message_count ∧
    (stepFirst i m).total_tokens = i.total_tokens ∧
    (stepFirst i m).food_related_messages = i.food_related_messages ∧
    (stepFirst i m).greeting_messages = i.greeting_messages ∧
    (stepFirst i m).last_message = i.last_message ∧
    (stepFirst i m).last_activity = i.last_activity := by
  unfold stepFirst
  split <;> exact ⟨rfl, rfl, rfl, rfl, rfl, rfl, rfl⟩

theorem stepLast_preserves (i : SessionInfo) (m : Message) :
    (stepLast i m).session_id = i.session_id ∧
    (stepLast i m).message_count = i.message_count ∧
    (stepLast i m).total_tokens = i.total_tokens ∧
    (stepLast i m).food_related_messages = i.food_related_messages ∧
    (stepLast i m).greeting_messages = i.greeting_messages ∧
    (stepLast i m).first_message = i.first_message := by
  unfold stepLast
  split <;> exact ⟨rfl, rfl, rfl, rfl, rfl, rfl⟩

theorem stepSession_session_id (i : SessionInfo) (m : Message) :
    (stepSession i m).session_id = i.session_id := by
  rw [stepSession, (stepLast_preserves _ _).1, (stepFirst_preserves _ _).1]
  rfl

theorem stepSession_message_count (i : SessionInfo) (m : Message) :
    (stepSession i m).message_count = i.message_count + 1 := by
  rw [stepSession, (stepLast_preserves _ _).2.1, (stepFirst_preserves _ _).2.1]
  rfl

theorem stepSession_total_tokens (i : SessionInfo) (m : Message) :
    (stepSession i m).total_tokens
      = i.total_tokens + (m.user_message_tokens + m.assistant_response_tokens) := by
  rw [stepSession, (stepLast_preserves _ _).2.2.1, (stepFirst_preserves _ _).2.2.1]
  show i.total_tokens + m.user_message_tokens + m.assistant_response_tokens = _
  omega

theorem stepSession_food (i : SessionInfo) (m : Message) :
    (stepSession i m).food_related_messages
      = i.food_related_messages + (if m.contains_food_keywords then 1 else 0) := by
  rw [stepSession, (stepLast_preserves _ _).2.2.2.1,
    (stepFirst_preserves _ _).2.2.2.1]
  rfl

theorem stepSession_greeting (i : SessionInfo) (m : Message) :
    (stepSession i m).greeting_messages
      = i.greeting_messages + (if m.is_greeting then 1 else 0) := by
  rw [stepSession, (stepLast_preserves _ _).2.2.2.2.1,
    (stepFirst_preserves _ _).2.2.2.2.1]
  rfl

theorem applySession_session_id (ms : List Message) :
    ∀ i : SessionInfo, (applySession i ms).session_id = i.session_id := by
  induction ms with
  | nil => intro i; rfl
  | cons m ms ih =>
    intro i
    show (applySession (stepSession i m) ms).session_id = _
    rw [ih, stepSession_session_id]

theorem applySession_message_count (ms : List Message) :
    ∀ i : SessionInfo, (applySession i ms).message_count
      = i.message_count + ms.length := by
  induction ms with
  | nil => intro i; rfl
  | cons m ms ih =>
    intro i
    show (applySession (stepSession i m) ms).message_count = _
    rw [ih, stepSession_message_count, List.length_cons]
    omega

theorem applySession_total_tokens (ms : List Message) :
    ∀ i : SessionInfo, (applySession i ms).total_tokens
      = i.total_tokens
        + (ms.map (fun m => m.user_message_tokens + m.assistant_response_tokens)).sum := by
  induction ms with
  | nil => intro i; simp [applySession]
  | cons m ms ih =>
    intro i
    show (applySession (stepSession i m) ms).total_tokens = _
    rw [ih, stepSession_total_tokens, List.map_cons, List.sum_cons]
    omega

theorem applySession_food (ms : List Message) :
    ∀ i : SessionInfo, (applySession i ms).food_related_messages
      = i.food_related_messages + ms.countP (fun m => m.contains_food_keywords) := by
  induction ms with
  | nil => intro i; simp [applySession]
  | cons m ms ih =>
    intro i
    show (applySession (stepSession i m) ms).food_related_messages = _
    rw [ih, stepSession_food, List.countP_cons]
    by_cases h : m.contains_food_keywords
    · simp [h]
      omega
    · simp [h]

theorem applySession_greeting (ms : List Message) :
    ∀ i : SessionInfo, (applySession i ms).greeting_messages
      = i.greeting_messages + ms.countP (fun m => m.is_greeting) := by
  induction ms with
  | nil => intro i; simp [applySession]
  | cons m ms ih =>
    intro i
    show (applySession (stepSession i m) ms).greeting_messages = _
    rw [ih, stepSession_greeting, List.countP_cons]
    by_cases h : m.is_greeting
    · simp [h]
      omega
    · simp [h]

theorem stepSession_first_last_frozen (i : SessionInfo) (m : Message)
    (hf : optStrFalsy i.first_message = false)
    (hl : optStrFalsy i.last_message = false) :
    (stepSession i m).first_message = i.first_message ∧
    (stepSession i m).last_message = i.last_message ∧
    (stepSession i m).last_activity = i.last_activity := by
  have hcf : (stepCounts i m).first_message = i.first_message := rfl
  have hcl : (stepCounts i m).last_message = i.last_message := rfl
  have hca : (stepCounts i m).last_activity = i.last_activity := rfl
  have h1 : stepFirst (stepCounts i m) m = stepCounts i m := by
    unfold stepFirst
    rw [hcf, hf]
    simp
  rw [stepSession, h1]
  have h2 : stepLast (stepCounts i m) m = stepCounts i m := by
    unfold stepLast
    rw [hcl, hl]
    simp
  rw [h2]
  exact ⟨hcf, hcl, hca⟩

theorem applySession_first_last_frozen (ms : List Message) :
    ∀ i : SessionInfo, optStrFalsy i.first_message = false →
    optStrFalsy i.last_message = false →
    (applySession i ms).first_message = i.first_message ∧
    (applySession i ms).last_message = i.last_message ∧
    (applySession i ms).last_activity = i.last_activity := by
  induction ms with
  | nil => intro i _ _; exact ⟨rfl, rfl, rfl⟩
  | cons m ms ih =>
    intro i hf hl
    have hstep := stepSession_first_last_frozen i m hf hl
    have hf' : optStrFalsy (stepSession i m).first_message = false := by
      rw [hstep.1]; exact hf
    have hl' : optStrFalsy (stepSession i m).last_message = false := by
      rw [hstep.2.1]; exact hl
    have := ih (stepSession i m) hf' hl'
    show (applySession (stepSession i m) ms).first_message = _ ∧
      (applySession (stepSession i m) ms).last_message = _ ∧
      (applySession (stepSession i m) ms).last_activity = _
    rw [this.1, this.2.1, this.2.2, hstep.1, hstep.2.1, hstep.2.2]
    exact ⟨rfl, rfl, rfl⟩

theorem applySession_from_default (sid : String) (m : Message) (ms : List Message)
    (hm : (m.created_at == "") = false) :
    (applySession (defaultSessionInfo sid) (m :: ms)).first_message
      = some m.created_at ∧
    (applySession (defaultSessionInfo sid) (m :: ms)).last_message
      = some m.created_at ∧
    (applySession (defaultSessionInfo sid) (m :: ms)).last_activity
      = some m.timestamp := by
  have hstep : stepSession (defaultSessionInfo sid) m
      = { stepCounts (defaultSessionInfo sid) m with
          first_message := some m.created_at
          last_message := some m.created_at
          last_activity := some m.timestamp } := rfl
  show (applySession (stepSession (defaultSessionInfo sid) m) ms).first_message = _ ∧
    (applySession (stepSession (defaultSessionInfo sid) m) ms).last_message = _ ∧
    (applySession (stepSession (defaultSessionInfo sid) m) ms).last_activity = _
  have hfrozen := applySession_first_last_frozen ms
    (stepSession (defaultSessionInfo sid) m)
    (by rw [hstep]; simpa [optStrFalsy] using hm)
    (by rw [hstep]; simpa [optStrFalsy] using hm)
  rw [hfrozen.1, hfrozen.2.1, hfrozen.2.2, hstep]
  exact ⟨rfl, rfl, rfl⟩

theorem sessionMsgs_cons (sid : String) (kv : String × Message)
    (rest : List (String × Message)) :
    sessionMsgs sid (kv :: rest)
      = if kv.2.session_id == sid then kv.2 :: sessionMsgs sid rest
        else sessionMsgs sid rest := by
  simp only [sessionMsgs, List.map_cons, List.filter_cons]

theorem processSessions_lookup_some (stream : List (String × Message)) :
    ∀ (dict : List (String × SessionInfo)) (sid : String) (i : SessionInfo),
    lookupKey sid dict = some i →
    lookupKey sid (processSessions dict stream)
      = some (applySession i (sessionMsgs sid stream)) := by
  induction stream with
  | nil =>
    intro dict sid i h
    simp only [processSessions, sessionMsgs, List.map_nil, List.filter_nil,
      applySession, List.foldl_nil]
    exact h
  | cons kv rest ih =>
    intro dict sid i h
    rw [processSessions]
    by_cases hs : kv.2.session_id = sid
    · subst hs
      have hck : containsKey kv.2.session_id dict = true := by
        rw [containsKey_iff_lookupKey, h]
        rfl
      have hdict1 : (if containsKey kv.2.session_id dict then dict
          else dict ++ [(kv.2.session_id, defaultSessionInfo kv.2.session_id)])
          = dict := by
        simp [hck]
      rw [hdict1]
      have hlook : lookupKey kv.2.session_id
          (updateKey kv.2.session_id (fun j => stepSession j kv.2) dict)
          = some (stepSession i kv.2) := by
        rw [lookupKey_updateKey_self, h]
        rfl
      rw [ih _ _ _ hlook, sessionMsgs_cons]
      have hbeq : (kv.2.session_id == kv.2.session_id) = true := beq_self_eq_true _
      simp [hbeq, applySession]
    · have hd1 : lookupKey sid
          (if containsKey kv.2.session_id dict then dict
           else dict ++ [(kv.2.session_id, defaultSessionInfo kv.2.session_id)])
          = some i := by
        split
        · exact h
        · exact lookupKey_append_of_some sid dict _ i h
      have hlook : lookupKey sid
          (updateKey kv.2.session_id (fun j => stepSession j kv.2)
            (if containsKey kv.2.session_id dict then dict
             else dict ++ [(kv.2.session_id, defaultSessionInfo kv.2.session_id)]))
          = some i := by
        rw [lookupKey_updateKey_ne _ _ _ _ (fun hcon => hs hcon.symm)]
        exact hd1
      rw [ih _ sid i hlook, sessionMsgs_cons]
      have hbeq : (kv.2.session_id == sid) = false := by simp [hs]
      rw [hbeq]
      simp

theorem processSessions_lookup_none (stream : List (String × Message)) :
    ∀ (dict : List (String × SessionInfo)) (sid : String),
    lookupKey sid dict = none →
    lookupKey sid (processSessions dict stream)
      = match sessionMsgs sid stream with
        | [] => none
        | m :: ms => some (applySession (defaultSessionInfo sid) (m :: ms)) := by
  induction stream with
  | nil =>
    intro dict sid h
    simp only [processSessions, sessionMsgs, List.map_nil, List.filter_nil]
    exact h
  | cons kv rest ih =>
    intro dict sid h
    rw [processSessions]
    by_cases hs : kv.2.session_id = sid
    · subst hs
      have hck : containsKey kv.2.session_id dict = false := by
        cases hc : containsKey kv.2.session_id dict
        · rfl
        · rw [containsKey_iff_lookupKey] at hc
          rw [h] at hc
          simp at hc
      have hdict1 : (if containsKey kv.2.session_id dict then dict
          else dict ++ [(kv.2.session_id, defaultSessionInfo kv.2.session_id)])
          = dict ++ [(kv.2.session_id, defaultSessionInfo kv.2.session_id)] := by
        simp [hck]
      rw [hdict1]
      have hd1 : lookupKey kv.2.session_id
          (dict ++ [(kv.2.session_id, defaultSessionInfo kv.2.session_id)])
          = some (defaultSessionInfo kv.2.session_id) := by
        rw [lookupKey_append_of_none _ dict _ h]
        simp [lookupKey]
      have hlook : lookupKey kv.2.session_id
          (updateKey kv.2.session_id (fun j => stepSession j kv.2)
            (dict ++ [(kv.2.session_id, defaultSessionInfo kv.2.session_id)]))
          = some (stepSession (defaultSessionInfo kv.2.session_id) kv.2) := by
        rw [lookupKey_updateKey_self, hd1]
        rfl
      rw [processSessions_lookup_some rest _ _ _ hlook, sessionMsgs_cons]
      have hbeq : (kv.2.session_id == kv.2.session_id) = true := beq_self_eq_true _
      simp [hbeq, applySession]
    · have hd1 : lookupKey sid
          (if containsKey kv.2.session_id dict then dict
           else dict ++ [(kv.2.session_id, defaultSessionInfo kv.2.session_id)])
          = none := by
        split
        · exact h
        · rw [lookupKey_append_of_none sid dict _ h]
          simp [lookupKey, fun hcon => hs hcon]
      have hlook : lookupKey sid
          (updateKey kv.2.session_id (fun j => stepSession j kv.2)
            (if containsKey kv.2.session_id dict then dict
             else dict ++ [(kv.2.session_id, defaultSessionInfo kv.2.session_id)]))
          = none := by
        rw [lookupKey_updateKey_ne _ _ _ _ (fun hcon => hs hcon.symm)]
        exact hd1
      rw [ih _ sid hlook, sessionMsgs_cons]
      have hbeq : (kv.2.session_id == sid) = false := by simp [hs]
      rw [hbeq]
      simp

/-- C6, amended: for every user and every session id under which that
user has at least one stored Message (whose stored `created_at` strings
are non-empty), `get_user_sessions` reports an aggregate carrying the
exact message count, summed token totals and greeting/food message
counts of that session, and in `last_message`/`last_activity` the
created_at and timestamp of a most recent message of that session;
`first_message` does NOT hold the first (oldest) message — both
set-once guards fire on the newest-first stream, so it equals
`last_message`; the session list is sorted by last activity
descending. -/
theorem get_user_sessions_spec (S : MsgStore) (u sid : String)
    (hex : ∃ kv ∈ S, kv.2.user_id = u ∧ kv.2.session_id = sid)
    (hca : ∀ kv ∈ S, kv.2.user_id = u → kv.2.created_at ≠ "") :
    (∃ info ∈ get_user_sessions S u,
      info.session_id = sid ∧
      info.message_count
        = (S.filter (fun kv => kv.2.user_id == u && kv.2.session_id == sid)).length ∧
      info.total_tokens
        = ((S.filter (fun kv => kv.2.user_id == u && kv.2.session_id == sid)).map
            (fun kv => kv.2.user_message_tokens + kv.2.assistant_response_tokens)).sum ∧
      info.food_related_messages
        = (S.filter (fun kv => kv.2.user_id == u && kv.2.session_id == sid)).countP
            (fun kv => kv.2.contains_food_keywords) ∧
      info.greeting_messages
        = (S.filter (fun kv => kv.2.user_id == u && kv.2.session_id == sid)).countP
            (fun kv => kv.2.is_greeting) ∧
      info.first_message = info.last_message ∧
      (∃ kv0 ∈ S, kv0.2.user_id = u ∧ kv0.2.session_id = sid ∧
        info.last_message = some kv0.2.created_at ∧
        info.last_activity = some kv0.2.timestamp ∧
        (∀ kv ∈ S, kv.2.user_id = u → kv.2.session_id = sid →
          kv.2.timestamp ≤ kv0.2.timestamp))) ∧
    (get_user_sessions S u).Pairwise
      (fun a b => lastActivityKey b ≤ lastActivityKey a) := by
  have hstream : List.Perm (sortLe tsDescLe (S.filter (fun kv => kv.2.user_id == u)))
      (S.filter (fun kv => kv.2.user_id == u)) := sortLe_perm _ _
  set stream := sortLe tsDescLe (S.filter (fun kv => kv.2.user_id == u)) with hstreamdef
  set sfilter := S.filter (fun kv => kv.2.user_id == u && kv.2.session_id == sid)
    with hsf
  set ms := sessionMsgs sid stream with hmsdef
  -- the session's messages are a permutation of the filtered store
  have hstep1 : ((S.filter (fun kv => kv.2.user_id == u)).map Prod.snd).filter
      (fun m => m.session_id == sid)
      = ((S.filter (fun kv => kv.2.user_id == u)).filter
          (fun kv => kv.2.session_id == sid)).map Prod.snd :=
    List.filter_map Prod.snd _
  have hstep2 : (S.filter (fun kv => kv.2.user_id == u)).filter
      (fun kv => kv.2.session_id == sid) = sfilter := by
    rw [List.filter_filter, hsf]
    exact List.filter_congr (fun kv _ => Bool.and_comm _ _)
  have hperm : List.Perm ms (sfilter.map Prod.snd) := by
    rw [hmsdef]
    unfold sessionMsgs
    have hp1 : List.Perm
        ((stream.map Prod.snd).filter (fun m => m.session_id == sid))
        (((S.filter (fun kv => kv.2.user_id == u)).map Prod.snd).filter
          (fun m => m.session_id == sid)) :=
      (hstream.map _).filter _
    rw [hstep1, hstep2] at hp1
    exact hp1
  -- membership transfer from the store into ms
  have hmem_ms : ∀ kv ∈ S, kv.2.user_id = u → kv.2.session_id = sid →
      kv.2 ∈ ms := by
    intro kv hkv h1 h2
    have hsfmem : kv ∈ sfilter := by
      rw [hsf]
      exact List.mem_filter.mpr ⟨hkv, by simp [h1, h2]⟩
    exact hperm.mem_iff.mpr (List.mem_map_of_mem Prod.snd hsfmem)
  -- ms is nonempty
  obtain ⟨kvx, hkvx, hkvx1, hkvx2⟩ := hex
  have hne : ms ≠ [] := List.ne_nil_of_mem (hmem_ms kvx hkvx hkvx1 hkvx2)
  obtain ⟨m0, tail, hmsq⟩ := List.exists_cons_of_ne_nil hne
  -- the aggregate stored under sid
  have hlook : lookupKey sid (processSessions [] stream)
      = some (applySession (defaultSessionInfo sid) ms) := by
    have h0 : lookupKey sid ([] : List (String × SessionInfo)) = none := rfl
    have := processSessions_lookup_none stream [] sid h0
    rw [← hmsdef] at this
    rw [this, hmsq]
  set info := applySession (defaultSessionInfo sid) ms with hinfo
  have hmem_out : info ∈ get_user_sessions S u := by
    unfold get_user_sessions
    rw [← hstreamdef]
    refine (mem_sortLe_iff _ _ _).mpr ?_
    exact List.mem_map_of_mem Prod.snd (mem_of_lookupKey sid _ _ hlook)
  -- head of ms corresponds to a stored pair and dominates timestamps
  have hm0 : m0 ∈ ms := by rw [hmsq]; exact List.mem_cons_self _ _
  obtain ⟨kv0, hkv0sf, hkv0snd⟩ := List.mem_map.mp (hperm.mem_iff.mp hm0)
  have hkv0S : kv0 ∈ S := List.mem_of_mem_filter (hsf ▸ hkv0sf)
  have hkv0pred := (List.mem_filter.mp (hsf ▸ hkv0sf)).2
  have hkv0u : kv0.2.user_id = u := by
    simp only [Bool.and_eq_true, beq_iff_eq] at hkv0pred
    exact hkv0pred.1
  have hkv0s : kv0.2.session_id = sid := by
    simp only [Bool.and_eq_true, beq_iff_eq] at hkv0pred
    exact hkv0pred.2
  -- ms is sorted by descending timestamp
  have hsorted : ms.Pairwise (fun a b : Message => b.timestamp ≤ a.timestamp) := by
    have h1 : stream.Pairwise (fun a b => tsDescLe a b = true) := by
      rw [hstreamdef]
      refine sortLe_pairwise tsDescLe ?_ ?_ _
      · intro a b c hab hbc
        simp only [tsDescLe, decide_eq_true_eq] at hab hbc ⊢
        exact le_trans hbc hab
      · intro a b
        simp only [tsDescLe, decide_eq_true_eq]
        exact le_total b.2.timestamp a.2.timestamp
    have h2 : stream.Pairwise (fun a b => b.2.timestamp ≤ a.2.timestamp) :=
      h1.imp (fun hab => by simpa [tsDescLe] using hab)
    have h3 : (stream.map Prod.snd).Pairwise
        (fun a b : Message => b.timestamp ≤ a.timestamp) :=
      List.pairwise_map.mpr h2
    rw [hmsdef]
    unfold sessionMsgs
    exact h3.sublist (List.filter_sublist _)
  have hmax : ∀ m ∈ ms, m.timestamp ≤ m0.timestamp := by
    intro m hm
    rw [hmsq] at hm hsorted
    rcases List.mem_cons.mp hm with rfl | hm'
    · exact le_refl _
    · exact (List.pairwise_cons.mp hsorted).1 m hm'
  -- created_at of the head is non-empty
  have hm0ca : (m0.created_at == "") = false := by
    have := hca kv0 hkv0S hkv0u
    rw [hkv0snd] at this
    simpa using this
  have hfl := applySession_from_default sid m0 tail hm0ca
  rw [← hmsq] at hfl
  refine ⟨⟨info, hmem_out, ?_, ?_, ?_, ?_, ?_, ?_, ?_⟩, ?_⟩
  · rw [hinfo, applySession_session_id]
    rfl
  · rw [hinfo, applySession_message_count]
    simp only [defaultSessionInfo, Nat.zero_add]
    rw [hperm.length_eq, List.length_map]
  · rw [hinfo, applySession_total_tokens]
    simp only [defaultSessionInfo, Nat.zero_add]
    rw [(hperm.map (fun m => m.user_message_tokens + m.assistant_response_tokens)).sum_eq,
      List.map_map]
    rfl
  · rw [hinfo, applySession_food]
    simp only [defaultSessionInfo, Nat.zero_add]
    rw [hperm.countP_eq, List.countP_map]
    rfl
  · rw [hinfo, applySession_greeting]
    simp only [defaultSessionInfo, Nat.zero_add]
    rw [hperm.countP_eq, List.countP_map]
    rfl
  · rw [hinfo, hfl.1, hfl.2.1]
  · refine ⟨kv0, hkv0S, hkv0u, hkv0s, ?_, ?_, ?_⟩
    · rw [hinfo, hfl.2.1, hkv0snd]
    · rw [hinfo, hfl.2.2, hkv0snd]
    · intro kv hkv h1 h2
      rw [hkv0snd]
      exact hmax kv.2 (hmem_ms kv hkv h1 h2)
  · unfold get_user_sessions
    rw [← hstreamdef]
    have := sortLe_pairwise sessDescLe ?_ ?_
      ((processSessions [] stream).map Prod.snd)
    · exact this.imp (fun hab => by simpa [sessDescLe] using hab)
    · intro a b c hab hbc
      simp only [sessDescLe, decide_eq_true_eq] at hab hbc ⊢
      exact le_trans hbc hab
    · intro a b
      simp only [sessDescLe, decide_eq_true_eq]
      exact le_total (lastActivityKey b) (lastActivityKey a)

/-- C6 witness: on the demo store, user `u1`'s session `A` (2 messages)
has an aggregate in the session list with message_count 2, and the
session list is sorted by last activity descending. -/
theorem get_user_sessions_spec_witness :
    (∃ info ∈ get_user_sessions demoStore "u1",
      info.session_id = "A" ∧ info.message_count = 2) ∧
    (get_user_sessions demoStore "u1").Pairwise
      (fun a b => lastActivityKey b ≤ lastActivityKey a) := by
  have h := get_user_sessions_spec demoStore "u1" "A"
    ⟨("d1", msgA1), by constructor; · decide
                       · constructor <;> decide⟩
    (by decide)
  obtain ⟨⟨info, hmem, hsid, hcount, _⟩, hpair⟩ := h
  refine ⟨⟨info, hmem, hsid, ?_⟩, hpair⟩
  rw [hcount]
  decide

/-! ## Preference service (services/preference_service.py)

The preferences of a user form a Python dict whose values are lists of
strings in normal operation (a non-list value can only arrive through
`update_user_preferences`); `add_preference` branches on `isinstance(
..., list)`. Users live in the same `users` collection; only the fields
touched by the service are modelled. -/

inductive PrefVal where
  | list (xs : List String)
  | single (v : String)
deriving DecidableEq, Repr

abbrev Prefs := List (String × PrefVal)

structure PrefUserDoc where
  username : String
  email : String
  preferences : Option Prefs
  preferences_updated_at : Option Int
  created_at : Option Int
deriving DecidableEq, Repr

abbrev PrefStore := List (String × PrefUserDoc)

/-- Embedding of `PreferenceService.get_user_preferences`: `None` when
the user document does not exist, else the `preferences` field with
`{}` as default. -/
def get_user_preferences (store : PrefStore) (user_id : String) : Option Prefs :=
  match lookupKey user_id store with
  | none => none
  | some doc => some (doc.preferences.getD [])

/-- Embedding of `PreferenceService.update_user_preferences`: upsert —
create a shell user document (stamping `created_at`) when absent, else
overwrite the `preferences` field; either way the
`preferences_updated_at` stamp is rewritten to the current time `now`
(`datetime.utcnow()`). Returns the success boolean with the new
store. -/
def update_user_preferences (store : PrefStore) (user_id : String)
    (preferences : Prefs) (now : Int) : Bool × PrefStore :=
  match lookupKey user_id store with
  | none =>
    (true, store ++ [(user_id,
      { username := "user_" ++ user_id,
        email := "user_" ++ user_id ++ "@example.com",
        preferences := some preferences,
        preferences_updated_at := some now,
        created_at := some now })])
  | some doc =>
    (true, setKey user_id
      { doc with preferences := some preferences,
                 preferences_updated_at := some now } store)

/-- The default skeleton used when the user has no (or empty)
preferences. -/
def default_preferences : Prefs :=
  [("likes", .list []), ("dislikes", .list []), ("restrictions", .list []),
   ("allergies", .list []), ("cuisine_preferences", .list []),
   ("custom", .list [])]

/-- Python truthiness of `current_preferences` (`None` or `{}`). -/
def prefsFalsy : Option Prefs → Bool
  | none => true
  | some p => p.isEmpty

/-- The `current_preferences` value after the falsy-default step of
`add_preference`. -/
def currentPrefsOf (store : PrefStore) (user_id : String) : Prefs :=
  let current := get_user_preferences store user_id
  if prefsFalsy current then default_preferences else current.getD []

/-- Embedding of `PreferenceService.add_preference`. A known category
with a list value gets `value` appended unless already present; a known
non-list category is overwritten; an unknown category appends
`"category: value"` to the `custom` list unconditionally (creating the
`custom` key first when missing). If `custom` exists but is not a list,
`.append` raises and the outer handler returns `False` without
writing. `now` is the wall-clock time the write-back stamps. -/
def add_preference (store : PrefStore) (user_id preference_type value : String)
    (now : Int) : Bool × PrefStore :=
  let current := currentPrefsOf store user_id
  match lookupKey preference_type current with
  | some (.list xs) =>
    let current' :=
      if xs.contains value then current
      else setKey preference_type (.list (xs ++ [value])) current
    update_user_preferences store user_id current' now
  | some (.single _) =>
    update_user_preferences store user_id
      (setKey preference_type (.single value) current) now
  | none =>
    let current' :=
      if containsKey "custom" current then current
      else current ++ [("custom", .list [])]
    match lookupKey "custom" current' with
    | some (.list cs) =>
      update_user_preferences store user_id
        (setKey "custom" (.list (cs ++ [preference_type ++ ": " ++ value])) current')
        now
    | some (.single _) => (false, store)
    | none => (false, store)

/-- Number of occurrences of `value` in the list stored under category
`cat` of the user's preferences. -/
def categoryOccurrences (store : PrefStore) (user_id cat value : String) : Nat :=
  match get_user_preferences store user_id with
  | none => 0
  | some p =>
    match lookupKey cat p with
    | some (.list xs) => xs.count value
    | _ => 0

/-- C4 counterexample: adding the same value to an UNKNOWN category
twice records `"category: value"` on the `custom` list twice, not once
— the unknown-category branch of `add_preference` appends without the
membership check the known-category branch performs. -/
theorem add_preference_unknown_category_not_idempotent :
    categoryOccurrences
      (add_preference (add_preference [] "u1" "spice_level" "hot" 0).2
        "u1" "spice_level" "hot" 1).2
      "u1" "custom" "spice_level: hot" = 2 ∧
    ¬ categoryOccurrences
      (add_preference (add_preference [] "u1" "spice_level" "hot" 0).2
        "u1" "spice_level" "hot" 1).2
      "u1" "custom" "spice_level: hot" = 1 := by
  refine ⟨?_, ?_⟩ <;> decide

theorem isEmpty_false_of_lookupKey (k : String) (l : List (String × α)) (v : α)
    (h : lookupKey k l = some v) : l.isEmpty = false := by
  cases l with
  | nil => simp [lookupKey] at h
  | cons p t => rfl

theorem setKey_of_lookup_eq (k : String) (v : α) (l : List (String × α))
    (h : lookupKey k l = some v) : setKey k v l = l := by
  induction l with
  | nil => simp [lookupKey] at h
  | cons p t ih =>
    obtain ⟨a, b⟩ := p
    by_cases ha : a = k
    · subst ha
      simp [lookupKey] at h
      subst h
      simp [setKey]
    · simp only [lookupKey, ha, if_false] at h
      simp [setKey, ha, ih h]

theorem exists_doc_after_update (store : PrefStore) (u : String) (p : Prefs)
    (now : Int) :
    ∃ doc, lookupKey u (update_user_preferences store u p now).2 = some doc ∧
      doc.preferences = some p := by
  unfold update_user_preferences
  cases h : lookupKey u store with
  | none =>
    refine ⟨{ username := "user_" ++ u, email := "user_" ++ u ++ "@example.com",
              preferences := some p, preferences_updated_at := some now,
              created_at := some now }, ?_, rfl⟩
    show lookupKey u (store ++ [(u, _)]) = _
    rw [lookupKey_append_of_none u store _ h]
    simp [lookupKey]
  | some doc =>
    exact ⟨_, lookupKey_setKey_self u _ store, rfl⟩

theorem get_after_update (store : PrefStore) (u : String) (p : Prefs)
    (now : Int) :
    get_user_preferences (update_user_preferences store u p now).2 u = some p := by
  obtain ⟨doc, hdoc, hp⟩ := exists_doc_after_update store u p now
  unfold get_user_preferences
  rw [hdoc]
  show some (doc.preferences.getD []) = some p
  rw [hp]
  rfl

theorem currentPrefsOf_after_update (store : PrefStore) (u : String) (p : Prefs)
    (now : Int) (hne : p.isEmpty = false) :
    currentPrefsOf (update_user_preferences store u p now).2 u = p := by
  unfold currentPrefsOf
  rw [get_after_update]
  simp [prefsFalsy, hne]

theorem categoryOccurrences_eq (store : PrefStore) (u cat value : String)
    (p : Prefs) (xs : List String)
    (hget : get_user_preferences store u = some p)
    (hlk : lookupKey cat p = some (.list xs)) :
    categoryOccurrences store u cat value = xs.count value := by
  unfold categoryOccurrences
  simp [hget, hlk]

/-- C4, amended: `add_one` is idempotent on the stored preferences for
a category that is present in the current preferences with a list
value: a second identical call (at any later time) leaves the stored
preferences exactly as after the first call — only the
`preferences_updated_at` stamp is rewritten — and when the category's
list held `value` at most once beforehand, after one call and after
two calls the category holds exactly one occurrence of `value`. For an
UNKNOWN category the call is NOT idempotent: each call appends
`"category: value"` to the `custom` list again, so two calls leave the
prior count plus two occurrences (the counterexample shows 2 where the
original claim demands 1). -/
theorem add_preference_idempotent_amended (store : PrefStore)
    (u preference_type value : String) (now1 now2 : Int) :
    (∀ xs, lookupKey preference_type (currentPrefsOf store u)
        = some (.list xs) →
      xs.count value ≤ 1 →
      get_user_preferences
          (add_preference (add_preference store u preference_type value now1).2
            u preference_type value now2).2 u
        = get_user_preferences
            (add_preference store u preference_type value now1).2 u ∧
      categoryOccurrences
          (add_preference (add_preference store u preference_type value now1).2
            u preference_type value now2).2 u preference_type value = 1 ∧
      categoryOccurrences (add_preference store u preference_type value now1).2
          u preference_type value = 1) ∧
    (lookupKey preference_type (currentPrefsOf store u) = none →
      ∀ cs, lookupKey "custom" (currentPrefsOf store u) = some (.list cs) →
      categoryOccurrences
          (add_preference (add_preference store u preference_type value now1).2
            u preference_type value now2).2
          u "custom" (preference_type ++ ": " ++ value)
        = cs.count (preference_type ++ ": " ++ value) + 2) := by
  constructor
  · intro xs hlook hcount
    cases hv : xs.contains value with
    | true =>
      have hmem : value ∈ xs := List.mem_of_elem_eq_true hv
      have hadd1 : add_preference store u preference_type value now1
          = update_user_preferences store u (currentPrefsOf store u) now1 := by
        unfold add_preference
        simp [hlook, hmem]
      have hne : (currentPrefsOf store u).isEmpty = false :=
        isEmpty_false_of_lookupKey _ _ _ hlook
      set S1 := (add_preference store u preference_type value now1).2 with hS1
      have hcur1 : currentPrefsOf S1 u = currentPrefsOf store u := by
        rw [hS1, hadd1]
        exact currentPrefsOf_after_update store u _ now1 hne
      have hadd2 : add_preference S1 u preference_type value now2
          = update_user_preferences S1 u (currentPrefsOf store u) now2 := by
        unfold add_preference
        simp [hcur1, hlook, hmem]
      have hcnt : xs.count value = 1 := by
        have h1 : xs.count value ≠ 0 :=
          fun h0 => (List.count_eq_zero.mp h0) hmem
        omega
      refine ⟨?_, ?_, ?_⟩
      · rw [hadd2, get_after_update, hS1, hadd1, get_after_update]
      · rw [hadd2]
        rw [categoryOccurrences_eq _ u preference_type value
          (currentPrefsOf store u) xs (get_after_update S1 u _ now2) hlook]
        exact hcnt
      · rw [hS1, hadd1]
        rw [categoryOccurrences_eq _ u preference_type value
          (currentPrefsOf store u) xs (get_after_update store u _ now1) hlook]
        exact hcnt
    | false =>
      have hnmem : value ∉ xs := by
        intro hmem
        have hcv : xs.contains value = true := List.elem_eq_true_of_mem hmem
        rw [hcv] at hv
        cases hv
      have hadd1 : add_preference store u preference_type value now1
          = update_user_preferences store u
              (setKey preference_type (.list (xs ++ [value]))
                (currentPrefsOf store u)) now1 := by
        unfold add_preference
        simp [hlook, hnmem]
      have hlk1 : lookupKey preference_type
          (setKey preference_type (.list (xs ++ [value])) (currentPrefsOf store u))
          = some (.list (xs ++ [value])) := lookupKey_setKey_self _ _ _
      have hne : (setKey preference_type (.list (xs ++ [value]))
          (currentPrefsOf store u)).isEmpty = false :=
        isEmpty_false_of_lookupKey _ _ _ hlk1
      set S1 := (add_preference store u preference_type value now1).2 with hS1
      have hcur1 : currentPrefsOf S1 u
          = setKey preference_type (.list (xs ++ [value]))
              (currentPrefsOf store u) := by
        rw [hS1, hadd1]
        exact currentPrefsOf_after_update store u _ now1 hne
      have hadd2 : add_preference S1 u preference_type value now2
          = update_user_preferences S1 u
              (setKey preference_type (.list (xs ++ [value]))
                (currentPrefsOf store u)) now2 := by
        unfold add_preference
        simp [hcur1, hlk1]
      have hcnt : (xs ++ [value]).count value = 1 := by
        rw [List.count_append, List.count_eq_zero.mpr hnmem]
        simp
      refine ⟨?_, ?_, ?_⟩
      · rw [hadd2, get_after_update, hS1, hadd1, get_after_update]
      · rw [hadd2]
        rw [categoryOccurrences_eq _ u preference_type value _ (xs ++ [value])
          (get_after_update S1 u _ now2) hlk1]
        exact hcnt
      · rw [hS1, hadd1]
        rw [categoryOccurrences_eq _ u preference_type value _ (xs ++ [value])
          (get_after_update store u _ now1) hlk1]
        exact hcnt
  · intro hnone cs hcust
    have hnec : preference_type ≠ "custom" := by
      intro h
      rw [h, hcust] at hnone
      cases hnone
    have hck : containsKey "custom" (currentPrefsOf store u) = true := by
      rw [containsKey_iff_lookupKey, hcust]
      rfl
    have hadd1 : add_preference store u preference_type value now1
        = update_user_preferences store u
            (setKey "custom"
              (.list (cs ++ [preference_type ++ ": " ++ value]))
              (currentPrefsOf store u)) now1 := by
      unfold add_preference
      simp [hnone, hck, hcust]
    have hlkc1 : lookupKey "custom"
        (setKey "custom" (.list (cs ++ [preference_type ++ ": " ++ value]))
          (currentPrefsOf store u))
        = some (.list (cs ++ [preference_type ++ ": " ++ value])) :=
      lookupKey_setKey_self _ _ _
    have hne1 : (setKey "custom"
        (.list (cs ++ [preference_type ++ ": " ++ value]))
        (currentPrefsOf store u)).isEmpty = false :=
      isEmpty_false_of_lookupKey _ _ _ hlkc1
    set S1 := (add_preference store u preference_type value now1).2 with hS1
    have hcur1 : currentPrefsOf S1 u
        = setKey "custom" (.list (cs ++ [preference_type ++ ": " ++ value]))
            (currentPrefsOf store u) := by
      rw [hS1, hadd1]
      exact currentPrefsOf_after_update store u _ now1 hne1
    have hnone2 : lookupKey preference_type
        (setKey "custom" (.list (cs ++ [preference_type ++ ": " ++ value]))
          (currentPrefsOf store u)) = none := by
      rw [lookupKey_setKey_ne _ _ _ _ hnec]
      exact hnone
    have hck2 : containsKey "custom"
        (setKey "custom" (.list (cs ++ [preference_type ++ ": " ++ value]))
          (currentPrefsOf store u)) = true := by
      rw [containsKey_iff_lookupKey, hlkc1]
      rfl
    have hadd2 : add_preference S1 u preference_type value now2
        = update_user_preferences S1 u
            (setKey "custom"
              (.list ((cs ++ [preference_type ++ ": " ++ value])
                ++ [preference_type ++ ": " ++ value]))
              (setKey "custom" (.list (cs ++ [preference_type ++ ": " ++ value]))
                (currentPrefsOf store u))) now2 := by
      unfold add_preference
      simp [hcur1, hnone2, hck2, hlkc1]
    rw [hadd2]
    rw [categoryOccurrences_eq _ u "custom" (preference_type ++ ": " ++ value)
      _ ((cs ++ [preference_type ++ ": " ++ value])
          ++ [preference_type ++ ": " ++ value])
      (get_after_update S1 u _ now2) (lookupKey_setKey_self _ _ _)]
    rw [List.count_append, List.count_append]
    simp

/-- C4 witness: the amended idempotence at a concrete input — adding
"paneer" to the known `likes` category twice (at times 0 and 1) on an
empty store leaves the stored preferences unchanged by the second call
and exactly one occurrence after both calls. -/
theorem add_preference_idempotent_amended_witness :
    get_user_preferences
        (add_preference (add_preference [] "u1" "likes" "paneer" 0).2
          "u1" "likes" "paneer" 1).2 "u1"
      = get_user_preferences
          (add_preference [] "u1" "likes" "paneer" 0).2 "u1" ∧
    categoryOccurrences
        (add_preference (add_preference [] "u1" "likes" "paneer" 0).2
          "u1" "likes" "paneer" 1).2 "u1" "likes" "paneer" = 1 := by
  have h := (add_preference_idempotent_amended [] "u1" "likes" "paneer" 0 1).1
    [] (by decide) (by decide)
  exact ⟨h.1, h.2.1⟩
